import Mathlib

/-!
Verification development for the kitchen shift scheduler
(`src/kitchen_app.py`).

The program builds a CP-SAT model over boolean variables
`shifts[(w,r)][t]` (worker `w` performs role `r` at flattened slot `t`),
auxiliary reified booleans `is_off[w][d]`, block-start booleans
`start_{w,d,h}` and two-days-off booleans `2off_{w,d}`, posts the
constraints of lines 96-189, solves with a 20s budget, and decodes the
resulting assignment into a weekly table plus per-worker summary
statistics (lines 203-246).

Below, a `Solution` packages a value for every model variable; the
predicate `Feasible` is the conjunction of the posted constraints,
translated clause by clause from the source.  The decoder of lines
209-246 is embedded as `stepDay` / `summaryOf` / `planningOf` /
`displayResults`.
-/

inductive Role where
  | Cuisinier
  | Pizzaiolo
  | Plongeur
  deriving DecidableEq, Repr

/-- `ROLES = ["Cuisinier", "Pizzaiolo", "Plongeur"]` (line 9). -/
def ROLES : List Role := [Role.Cuisinier, Role.Pizzaiolo, Role.Plongeur]

def DAYS : Nat := 7

def HOURS_PER_DAY : Nat := 14

/-- `idx = lambda d, h: d * HOURS_PER_DAY + h` (line 86). -/
def idx (d h : Nat) : Nat := d * HOURS_PER_DAY + h

/-- `SLOTS = DAYS * HOURS_PER_DAY` (line 87). -/
def SLOTS : Nat := DAYS * HOURS_PER_DAY

/-- One row of the employee table after `fillna`: name, one skill flag per
role, weekly hour cap (`Heures Max`), break cap (`Coupures Max`). -/
structure Worker where
  nom : String
  cuisinier : Bool
  pizzaiolo : Bool
  plongeur : Bool
  heuresMax : Nat
  coupuresMax : Nat
  deriving DecidableEq, Repr

/-- `bool(df_emp.iloc[w][r])` for a role column `r` (line 178). -/
def Worker.skill (wk : Worker) : Role → Bool
  | Role.Cuisinier => wk.cuisinier
  | Role.Pizzaiolo => wk.pizzaiolo
  | Role.Plongeur => wk.plongeur

/-- The data handed to the model builder: the roster rows and the
requirement table `role_needs[r][day][h]` (Python ints, so `Int`:
nothing in the source forbids a negative entry). -/
structure Instance where
  workers : List Worker
  need : Role → Nat → Nat → Int

def defaultWorker : Worker :=
  { nom := "", cuisinier := false, pizzaiolo := false, plongeur := false,
    heuresMax := 0, coupuresMax := 0 }

/-- `df_emp.iloc[w]` (row lookup; all uses are at `w < W`). -/
def wkAt (inst : Instance) (w : Nat) : Worker :=
  inst.workers.getD w defaultWorker

/-- A value for every variable of the CP-SAT model: `shifts` (line 92),
`is_off` (line 99), `start` (line 136), the two-days-off `bloc`
(line 164). -/
structure Solution where
  shifts : Nat → Role → Nat → Bool
  off : Nat → Nat → Bool
  starts : Nat → Nat → Nat → Bool
  bloc : Nat → Nat → Bool

/-- `sum(shifts[(w, r)][t] for r in ROLES)` at a flattened slot. -/
def currT (s : Solution) (w t : Nat) : Nat :=
  ROLES.countP (fun r => s.shifts w r t)

/-- The same sum addressed by day and hour. -/
def curr (s : Solution) (w d h : Nat) : Nat :=
  currT s w (idx d h)

/-- `total_day` (lines 100, 128). -/
def totalDay (s : Solution) (w d : Nat) : Nat :=
  ((List.range HOURS_PER_DAY).map (fun h => curr s w d h)).sum

/-- `total_hours` (line 172). -/
def totalWeek (s : Solution) (w : Nat) : Nat :=
  ((List.range SLOTS).map (fun t => currT s w t)).sum

/-- `assigned = sum(shifts[(w, r)][t] for w in range(W))` (line 188). -/
def assignedCount (s : Solution) (W : Nat) (r : Role) (d h : Nat) : Nat :=
  (List.range W).countP (fun w => s.shifts w r (idx d h))

/-- `sum(... for hh in range(h, h + 3))` (line 150). -/
def minBlockSum (s : Solution) (w d h : Nat) : Nat :=
  ((List.range 3).map (fun i => curr s w d (h + i))).sum

/-- Lines 102-103: `total_day == 0` is enforced under `off`, and
`total_day >= 3` under `off.Not()`. -/
def OffLink (inst : Instance) (s : Solution) : Prop :=
  ∀ w < inst.workers.length, ∀ d < DAYS,
    (s.off w d = true → totalDay s w d = 0) ∧
    (s.off w d = false → 3 ≤ totalDay s w d)

/-- Line 110: at most one role per worker per slot. -/
def OneRolePerHour (inst : Instance) (s : Solution) : Prop :=
  ∀ w < inst.workers.length, ∀ t < SLOTS, currT s w t ≤ 1

/-- Line 122: `shifts[(w,r1)][t] + shifts[(w,r2)][t1] <= 1` for every
ordered pair of distinct roles at adjacent hours of one day. -/
def NoSwitch (inst : Instance) (s : Solution) : Prop :=
  ∀ w < inst.workers.length, ∀ d < DAYS, ∀ h < HOURS_PER_DAY - 1,
    ∀ r1 ∈ ROLES, ∀ r2 ∈ ROLES, r1 ≠ r2 →
      (if s.shifts w r1 (idx d h) then 1 else 0) +
        (if s.shifts w r2 (idx d (h + 1)) then 1 else 0) ≤ 1

/-- Lines 138-146: the reification of `start`.  At `h = 0`, `curr == 1`
under `start` and `curr != 1` under `start.Not()`; at `h > 0` the same
for `curr - prev == 1` (integer subtraction, as in the solver). -/
def startReify (s : Solution) (w d h : Nat) : Prop :=
  (h = 0 →
    (s.starts w d 0 = true → curr s w d 0 = 1) ∧
    (s.starts w d 0 = false → curr s w d 0 ≠ 1)) ∧
  (h ≠ 0 →
    (s.starts w d h = true →
      (curr s w d h : Int) - curr s w d (h - 1) = 1) ∧
    (s.starts w d h = false →
      (curr s w d h : Int) - curr s w d (h - 1) ≠ 1))

/-- Lines 149-154: a started block reaches 3 hours when `h ≤ 11`
(`h <= HOURS_PER_DAY - 3`); otherwise `start == 0`. -/
def startMinBlock (s : Solution) (w d h : Nat) : Prop :=
  (h + 3 ≤ HOURS_PER_DAY →
    (s.starts w d h = true → 3 ≤ minBlockSum s w d h)) ∧
  (¬ h + 3 ≤ HOURS_PER_DAY → s.starts w d h = false)

/-- Lines 125-158: daily cap, block-start reification and minimum
length, and `sum(starts) <= max_coup + 1`. -/
def DailyRules (inst : Instance) (s : Solution) : Prop :=
  ∀ w < inst.workers.length, ∀ d < DAYS,
    totalDay s w d ≤ 10 ∧
    (∀ h < HOURS_PER_DAY, startReify s w d h ∧ startMinBlock s w d h) ∧
    (List.range HOURS_PER_DAY).countP (fun h => s.starts w d h) ≤
      (wkAt inst w).coupuresMax + 1

/-- Lines 161-168: `bloc` is reified as the conjunction of two adjacent
`is_off` flags, and at least one `bloc` holds. -/
def TwoDaysOff (inst : Instance) (s : Solution) : Prop :=
  ∀ w < inst.workers.length,
    (∀ d < DAYS - 1,
      (s.bloc w d = true → s.off w d = true ∧ s.off w (d + 1) = true) ∧
      (s.bloc w d = false → s.off w d = false ∨ s.off w (d + 1) = false)) ∧
    1 ≤ (List.range (DAYS - 1)).countP (fun d => s.bloc w d)

/-- Lines 171-173: `total_hours <= int(df_emp.iloc[w]['Heures Max'])`. -/
def WeeklyCap (inst : Instance) (s : Solution) : Prop :=
  ∀ w < inst.workers.length, totalWeek s w ≤ (wkAt inst w).heuresMax

/-- Lines 176-180: every role the worker lacks is forced to 0 at every
slot. -/
def SkillElig (inst : Instance) (s : Solution) : Prop :=
  ∀ w < inst.workers.length, ∀ r ∈ ROLES,
    (wkAt inst w).skill r = false → ∀ t < SLOTS, s.shifts w r t = false

/-- Lines 183-189: `assigned == req` for every role, day and hour. -/
def Coverage (inst : Instance) (s : Solution) : Prop :=
  ∀ d < DAYS, ∀ h < HOURS_PER_DAY, ∀ r ∈ ROLES,
    (assignedCount s inst.workers.length r d h : Int) = inst.need r d h

/-- The conjunction of every constraint posted on the model, in source
order. -/
def Feasible (inst : Instance) (s : Solution) : Prop :=
  OffLink inst s ∧ OneRolePerHour inst s ∧ NoSwitch inst s ∧
  DailyRules inst s ∧ TwoDaysOff inst s ∧ WeeklyCap inst s ∧
  SkillElig inst s ∧ Coverage inst s

instance decOffLink (inst : Instance) (s : Solution) :
    Decidable (OffLink inst s) := by
  unfold OffLink; infer_instance

instance decOneRole (inst : Instance) (s : Solution) :
    Decidable (OneRolePerHour inst s) := by
  unfold OneRolePerHour; infer_instance

instance decNoSwitch (inst : Instance) (s : Solution) :
    Decidable (NoSwitch inst s) := by
  unfold NoSwitch; infer_instance

instance decStartReify (s : Solution) (w d h : Nat) :
    Decidable (startReify s w d h) := by
  unfold startReify; infer_instance

instance decStartMinBlock (s : Solution) (w d h : Nat) :
    Decidable (startMinBlock s w d h) := by
  unfold startMinBlock; infer_instance

instance decDailyRules (inst : Instance) (s : Solution) :
    Decidable (DailyRules inst s) := by
  unfold DailyRules; infer_instance

instance decTwoDaysOff (inst : Instance) (s : Solution) :
    Decidable (TwoDaysOff inst s) := by
  unfold TwoDaysOff; infer_instance

instance decWeeklyCap (inst : Instance) (s : Solution) :
    Decidable (WeeklyCap inst s) := by
  unfold WeeklyCap; infer_instance

instance decSkillElig (inst : Instance) (s : Solution) :
    Decidable (SkillElig inst s) := by
  unfold SkillElig; infer_instance

instance decCoverage (inst : Instance) (s : Solution) :
    Decidable (Coverage inst s) := by
  unfold Coverage; infer_instance

instance decFeasible (inst : Instance) (s : Solution) :
    Decidable (Feasible inst s) := by
  unfold Feasible; infer_instance

/-- A fully-skilled worker with the UI defaults `Heures Max = 42`,
`Coupures Max = 3` (lines 29-33). -/
def worker0 : Worker :=
  { nom := "Emp1", cuisinier := true, pizzaiolo := true, plongeur := true,
    heuresMax := 42, coupuresMax := 3 }

/-- The all-zero requirement table. -/
def need0 : Role → Nat → Nat → Int := fun _ _ _ => 0

def inst0 : Instance := { workers := [worker0], need := need0 }

/-- The empty schedule: nobody works, every day is off. -/
def sol0 : Solution :=
  { shifts := fun _ _ _ => false,
    off := fun _ _ => true,
    starts := fun _ _ _ => false,
    bloc := fun _ _ => true }

example : Feasible inst0 sol0 := by decide

/-- Requirements for the role-switch scenario: on Monday one Cuisinier
is needed 10:00-13:00 (hours 0-2) and one Pizzaiolo 14:00-17:00 (hours
4-6); nothing else all week. -/
def need1 : Role → Nat → Nat → Int := fun r d h =>
  if d = 0 then
    match r with
    | Role.Cuisinier => if h < 3 then 1 else 0
    | Role.Pizzaiolo => if 4 ≤ h ∧ h < 7 then 1 else 0
    | Role.Plongeur => 0
  else 0

def inst1 : Instance := { workers := [worker0], need := need1 }

/-- The schedule meeting `need1`: worker 0 cooks hours 0-2 of day 0,
takes hour 3 off, then works as Pizzaiolo hours 4-6; every other day is
off. -/
def sol1 : Solution :=
  { shifts := fun w r t =>
      if w = 0 then
        match r with
        | Role.Cuisinier => decide (t < 3)
        | Role.Pizzaiolo => decide (4 ≤ t ∧ t < 7)
        | Role.Plongeur => false
      else false,
    off := fun _ d => decide (d ≠ 0),
    starts := fun w d h => decide (w = 0 ∧ d = 0 ∧ (h = 0 ∨ h = 4)),
    bloc := fun _ d => decide (d ≠ 0) }

/-- `works` holds when the worker is assigned some role that hour. -/
def works (s : Solution) (w d h : Nat) : Bool :=
  decide (0 < curr s w d h)

/-- The specification's combinatorial block-start indicator: a block
starts at hour 0 iff the worker works it, and at `h > 0` iff the worker
works `h` but not `h - 1`. -/
def blockStart (s : Solution) (w d h : Nat) : Bool :=
  if h = 0 then works s w d 0 else works s w d h && ! works s w d (h - 1)

/-! ## Solution decoder (lines 209-246) -/

def roleName : Role → String
  | Role.Cuisinier => "Cuisinier"
  | Role.Pizzaiolo => "Pizzaiolo"
  | Role.Plongeur => "Plongeur"

def dayNames : List String :=
  ["Monday", "Tuesday", "Wednesday", "Thursday", "Friday", "Saturday",
   "Sunday"]

/-- Lines 217-220: `role_here` starts empty and is overwritten by each
role found set at the slot (the last role in `ROLES` order wins). -/
def roleHere (s : Solution) (w d h : Nat) : String :=
  ROLES.foldl
    (fun acc r => if s.shifts w r (idx d h) then roleName r else acc) ""

/-- Lines 215-223: the hours of the day whose decoded cell is
non-empty, in increasing order. -/
def workHours (s : Solution) (w d : Nat) : List Nat :=
  (List.range HOURS_PER_DAY).filter
    (fun h => decide (roleHere s w d h ≠ ""))

/-- The running per-worker counters of lines 212-236. -/
structure WSummary where
  totalH : Nat
  daysWorked : Nat
  coup : Nat
  maxOffStreak : Nat
  currOff : Nat
  deriving DecidableEq, Repr

/-- One day of the summary loop (lines 227-236): on a worked day bump
`days_worked` and `total_h`, count a `coupure` when the worked-hour
count is less than the span from first to last worked hour, and reset
the off-streak; on an off day extend the streak. -/
def stepDay (s : Solution) (w : Nat) (st : WSummary) (d : Nat) : WSummary :=
  let wh := workHours s w d
  if wh ≠ [] then
    { st with
      daysWorked := st.daysWorked + 1,
      totalH := st.totalH + wh.length,
      coup := st.coup +
        (if wh.length < wh.getLastD 0 - wh.headD 0 + 1 then 1 else 0),
      currOff := 0 }
  else
    { st with
      currOff := st.currOff + 1,
      maxOffStreak := max st.maxOffStreak (st.currOff + 1) }

/-- The summary counters after the day loop for worker `w`. -/
def summaryOf (s : Solution) (w : Nat) : WSummary :=
  (List.range DAYS).foldl (stepDay s w) ⟨0, 0, 0, 0, 0⟩

/-- `round(x, 2)` on the exact rational value. -/
def round2 (q : ℚ) : ℚ := (round (q * 100) : ℤ) / 100

/-- Line 238: `avg_h = round(total_h / days_worked, 2) if days_worked
else 0`. -/
def avgOf (s : Solution) (w : Nat) : ℚ :=
  let st := summaryOf s w
  if st.daysWorked ≠ 0 then round2 ((st.totalH : ℚ) / (st.daysWorked : ℚ))
  else 0

/-- The day both is worked and contains a gap: the worked-hour count is
strictly below the span from first to last worked hour (line 231). -/
def hasBreakDay (s : Solution) (w d : Nat) : Bool :=
  decide (workHours s w d ≠ []) &&
    decide ((workHours s w d).length <
      (workHours s w d).getLastD 0 - (workHours s w d).headD 0 + 1)

/-- Structural count of worked days, independent of the summary fold. -/
def daysWorkedOf (s : Solution) (w : Nat) : Nat :=
  (List.range DAYS).countP (fun d => decide (workHours s w d ≠ []))

/-- Structural weekly hour total, independent of the summary fold. -/
def weekHoursOf (s : Solution) (w : Nat) : Nat :=
  ((List.range DAYS).map (fun d => (workHours s w d).length)).sum

/-- One row of the schedule table (lines 214-224). -/
structure PlanRow where
  employe : String
  jour : String
  cells : List String
  deriving DecidableEq, Repr

def planRowOf (inst : Instance) (s : Solution) (w d : Nat) : PlanRow :=
  { employe := (wkAt inst w).nom,
    jour := dayNames.getD d "",
    cells := (List.range HOURS_PER_DAY).map (fun h => roleHere s w d h) }

/-- The full schedule table: one row per worker and day. -/
def planningOf (inst : Instance) (s : Solution) : List PlanRow :=
  (List.range inst.workers.length).flatMap
    (fun w => (List.range DAYS).map (fun d => planRowOf inst s w d))

/-- The statuses the CP-SAT solver can return. -/
inductive CpStatus where
  | Unknown
  | ModelInvalid
  | Feasible
  | Infeasible
  | Optimal
  deriving DecidableEq, Repr

def failMsg : String :=
  "No solution found. Try adjusting employee constraints or staffing needs."

/-- Lines 203-255: on `OPTIMAL` or `FEASIBLE` the decoder runs and the
schedule plus summaries are shown; on any other status only the error
message is shown. -/
def displayResults (st : CpStatus) (inst : Instance) (s : Solution) :
    Except String (List PlanRow × List WSummary) :=
  if st = CpStatus.Optimal ∨ st = CpStatus.Feasible then
    Except.ok (planningOf inst s,
      (List.range inst.workers.length).map (fun w => summaryOf s w))
  else Except.error failMsg

/-! ## Input handling (lines 78-88) -/

/-- A raw employee row as edited in the UI: any cell may be missing. -/
structure RawRow where
  nom : Option String
  cuisinier : Option Bool
  pizzaiolo : Option Bool
  plongeur : Option Bool
  heuresMax : Option Nat
  coupuresMax : Option Nat
  deriving DecidableEq, Repr

/-- `df_emp = st.session_state.kitchen_df.fillna(False)` (line 82)
followed by the `bool(...)` / `int(...)` reads: every missing cell is
silently replaced by `False` (which reads back as the string "False",
the boolean `false`, or the integer 0).  There is no error path. -/
def fillRow (row : RawRow) : Worker :=
  { nom := row.nom.getD "False",
    cuisinier := row.cuisinier.getD false,
    pizzaiolo := row.pizzaiolo.getD false,
    plongeur := row.plongeur.getD false,
    heuresMax := row.heuresMax.getD 0,
    coupuresMax := row.coupuresMax.getD 0 }

/-- Model construction input: the coerced roster plus the requirement
table, built unconditionally (lines 82-88). -/
def loadInstance (rows : List RawRow) (need : Role → Nat → Nat → Int) :
    Instance :=
  { workers := rows.map fillRow, need := need }

/-- A roster row whose `Cuisinier` skill cell was left empty. -/
def rowMissing : RawRow :=
  { nom := some "Emp1", cuisinier := none, pizzaiolo := some true,
    plongeur := some true, heuresMax := some 42, coupuresMax := some 3 }

/-- An instance whose requirement table holds a negative entry. -/
def instNeg : Instance := { workers := [worker0], need := fun _ _ _ => -1 }

/-- Scenario D input: worker 0 cooks clock hours 10-12 and 15-17 of
Monday (slot hours 0-2 and 5-7), nothing else. -/
def solD : Solution :=
  { shifts := fun w r t =>
      if w = 0 then
        match r with
        | Role.Cuisinier => decide (t < 3 ∨ (5 ≤ t ∧ t < 8))
        | _ => false
      else false,
    off := fun _ d => decide (d ≠ 0),
    starts := fun w d h => decide (w = 0 ∧ d = 0 ∧ (h = 0 ∨ h = 5)),
    bloc := fun _ d => decide (d ≠ 0) }

example : Feasible inst1 sol1 := by decide

/-! ## Helper lemmas -/

theorem mem_ROLES (r : Role) : r ∈ ROLES := by
  cases r <;> simp [ROLES]

theorem idx_lt_SLOTS {d h : Nat} (hd : d < DAYS) (hh : h < HOURS_PER_DAY) :
    idx d h < SLOTS := by
  unfold idx SLOTS DAYS HOURS_PER_DAY at *
  omega

/-- When at most one role is set at the hour and its predecessor, the
reified `start` variable coincides with the combinatorial block-start
indicator. -/
theorem starts_eq_blockStart (s : Solution) (w d h : Nat)
    (hcurr : curr s w d h ≤ 1) (hprev : curr s w d (h - 1) ≤ 1)
    (hreif : startReify s w d h) :
    s.starts w d h = blockStart s w d h := by
  have key : s.starts w d h = true ↔ blockStart s w d h = true := by
    constructor
    · intro hs
      by_cases h0 : h = 0
      · subst h0
        have hc := (hreif.1 rfl).1 hs
        simp [blockStart, works, hc]
      · have hc := (hreif.2 h0).1 hs
        have c1 : curr s w d h = 1 := by omega
        have c0 : curr s w d (h - 1) = 0 := by omega
        simp [blockStart, h0, works, c1, c0]
    · intro hb
      cases hs : s.starts w d h
      · exfalso
        by_cases h0 : h = 0
        · subst h0
          have hne := (hreif.1 rfl).2 hs
          simp [blockStart, works] at hb
          omega
        · have hne := (hreif.2 h0).2 hs
          simp [blockStart, h0, works] at hb
          obtain ⟨hb1, hb2⟩ := hb
          exact hne (by omega)
      · rfl
  cases hb : blockStart s w d h
  · cases hs : s.starts w d h
    · rfl
    · exact absurd (key.mp hs) (by simp [hb])
  · exact key.mpr hb

theorem stepDay_coup (s : Solution) (w : Nat) (st : WSummary) (d : Nat) :
    (stepDay s w st d).coup =
      st.coup + (if hasBreakDay s w d = true then 1 else 0) := by
  unfold stepDay hasBreakDay
  by_cases hne : workHours s w d ≠ []
  · simp [hne]
  · simp only [ne_eq, not_not] at hne
    simp [hne]

theorem stepDay_totalH (s : Solution) (w : Nat) (st : WSummary) (d : Nat) :
    (stepDay s w st d).totalH = st.totalH + (workHours s w d).length := by
  unfold stepDay
  by_cases hne : workHours s w d ≠ []
  · simp [hne]
  · simp only [ne_eq, not_not] at hne
    simp [hne]

theorem stepDay_daysWorked (s : Solution) (w : Nat) (st : WSummary)
    (d : Nat) :
    (stepDay s w st d).daysWorked =
      st.daysWorked + (if workHours s w d ≠ [] then 1 else 0) := by
  unfold stepDay
  by_cases hne : workHours s w d ≠ []
  · simp [hne]
  · simp only [ne_eq, not_not] at hne
    simp [hne]

theorem foldl_stepDay (s : Solution) (w : Nat) (ds : List Nat)
    (st : WSummary) :
    ((ds.foldl (stepDay s w) st).coup =
        st.coup + ds.countP (fun d => hasBreakDay s w d)) ∧
    ((ds.foldl (stepDay s w) st).totalH =
        st.totalH + (ds.map (fun d => (workHours s w d).length)).sum) ∧
    ((ds.foldl (stepDay s w) st).daysWorked =
        st.daysWorked +
          ds.countP (fun d => decide (workHours s w d ≠ []))) := by
  induction ds generalizing st with
  | nil => simp
  | cons a l ih =>
    simp only [List.foldl_cons, List.countP_cons, List.map_cons,
      List.sum_cons]
    obtain ⟨ih1, ih2, ih3⟩ := ih (stepDay s w st a)
    refine ⟨?_, ?_, ?_⟩
    · rw [ih1, stepDay_coup]
      by_cases hb : hasBreakDay s w a = true
      · simp [hb]
        omega
      · simp [hb]
    · rw [ih2, stepDay_totalH]
      omega
    · rw [ih3, stepDay_daysWorked]
      by_cases hb : workHours s w a ≠ []
      · simp [hb]
        omega
      · simp [hb]

/-! ## Claims -/

/-- C1: in every accepted solution, for every role, day and hour, the
number of workers assigned that role at that slot equals the required
count exactly. -/
theorem C1_coverage_exact (inst : Instance) (s : Solution)
    (hf : Feasible inst s) (r : Role) (d h : Nat) (hd : d < DAYS)
    (hh : h < HOURS_PER_DAY) :
    (assignedCount s inst.workers.length r d h : Int) = inst.need r d h :=
  hf.2.2.2.2.2.2.2 d hd h hh r (mem_ROLES r)

theorem C1_coverage_exact_witness :
    (assignedCount sol0 inst0.workers.length Role.Cuisinier 0 0 : Int) =
      inst0.need Role.Cuisinier 0 0 :=
  C1_coverage_exact inst0 sol0 (by decide) Role.Cuisinier 0 0 (by decide)
    (by decide)

/-- C2 (counterexample): the claim that a worker, once assigned a role at
some hour of a day, is never assigned a different role at ANY later hour
of that day fails: `sol1` satisfies every model constraint, yet worker 0
is Cuisinier at hour 0 of day 0 and Pizzaiolo at the later hour 4 of the
same day (after a one-hour gap). -/
theorem C2_gap_role_switch_counterexample :
    Feasible inst1 sol1 ∧
    sol1.shifts 0 Role.Cuisinier (idx 0 0) = true ∧
    sol1.shifts 0 Role.Pizzaiolo (idx 0 4) = true ∧
    Role.Cuisinier ≠ Role.Pizzaiolo ∧ (0 : Nat) < 4 :=
  ⟨by decide, by decide, by decide, by decide, by decide⟩

/-- C2 (amended): in every accepted solution a worker never holds role
`r1` at hour `h` and a different role `r2` at the immediately following
hour `h + 1` of the same day; only across a gap of non-working hours may
the role change. -/
theorem C2_no_adjacent_role_switch (inst : Instance) (s : Solution)
    (hf : Feasible inst s) (w d h : Nat) (r1 r2 : Role)
    (hw : w < inst.workers.length) (hd : d < DAYS)
    (hh : h < HOURS_PER_DAY - 1) (hne : r1 ≠ r2) :
    ¬(s.shifts w r1 (idx d h) = true ∧
      s.shifts w r2 (idx d (h + 1)) = true) := by
  rintro ⟨h1, h2⟩
  have hcon := hf.2.2.1 w hw d hd h hh r1 (mem_ROLES r1) r2 (mem_ROLES r2)
    hne
  simp [h1, h2] at hcon

theorem C2_no_adjacent_role_switch_witness :
    ¬(sol1.shifts 0 Role.Cuisinier (idx 0 0) = true ∧
      sol1.shifts 0 Role.Pizzaiolo (idx 0 1) = true) :=
  C2_no_adjacent_role_switch inst1 sol1 (by decide) 0 0 0 Role.Cuisinier
    Role.Pizzaiolo (by decide) (by decide) (by decide) (by decide)

/-- C3: in every accepted solution each worker's daily total is either
exactly 0 or between 3 and 10 hours; 1 or 2 worked hours never occur. -/
theorem C3_day_total_zero_or_3_to_10 (inst : Instance) (s : Solution)
    (hf : Feasible inst s) (w d : Nat) (hw : w < inst.workers.length)
    (hd : d < DAYS) :
    totalDay s w d = 0 ∨ (3 ≤ totalDay s w d ∧ totalDay s w d ≤ 10) := by
  have hoff := hf.1 w hw d hd
  have hcap := (hf.2.2.2.1 w hw d hd).1
  cases hb : s.off w d
  · exact Or.inr ⟨hoff.2 hb, hcap⟩
  · exact Or.inl (hoff.1 hb)

theorem C3_day_total_zero_or_3_to_10_witness :
    totalDay sol1 0 0 = 0 ∨
      (3 ≤ totalDay sol1 0 0 ∧ totalDay sol1 0 0 ≤ 10) :=
  C3_day_total_zero_or_3_to_10 inst1 sol1 (by decide) 0 0 (by decide)
    (by decide)

/-- C4: in every accepted solution, the number of maximal contiguous
working blocks of a worker's day — counted by the combinatorial
block-start indicator (`blockStart`: works hour 0, or works `h` without
working `h - 1`) — is at most `Coupures Max + 1`, and no block starts in
the last 2 hours of a day. -/
theorem C4_block_count_bounded (inst : Instance) (s : Solution)
    (hf : Feasible inst s) (w d : Nat) (hw : w < inst.workers.length)
    (hd : d < DAYS) :
    (List.range HOURS_PER_DAY).countP (fun h => blockStart s w d h) ≤
      (wkAt inst w).coupuresMax + 1 ∧
    (∀ h, HOURS_PER_DAY - 2 ≤ h → h < HOURS_PER_DAY →
      blockStart s w d h = false) := by
  obtain ⟨hoff, hone, hsw, hdaily, hrest⟩ := hf
  obtain ⟨hcap, hhour, hcount⟩ := hdaily w hw d hd
  have heq : ∀ h, h < HOURS_PER_DAY →
      s.starts w d h = blockStart s w d h := by
    intro h hmem
    have hcurr : curr s w d h ≤ 1 :=
      hone w hw (idx d h) (idx_lt_SLOTS hd hmem)
    have hprev : curr s w d (h - 1) ≤ 1 :=
      hone w hw (idx d (h - 1)) (idx_lt_SLOTS hd (by omega))
    exact starts_eq_blockStart s w d h hcurr hprev (hhour h hmem).1
  constructor
  · have hcongr : (List.range HOURS_PER_DAY).countP
        (fun h => s.starts w d h) =
        (List.range HOURS_PER_DAY).countP (fun h => blockStart s w d h) := by
      refine List.countP_congr ?_
      intro h hmem
      rw [List.mem_range] at hmem
      rw [heq h hmem]
    exact hcongr ▸ hcount
  · intro h h2 h14
    have hlate : ¬ h + 3 ≤ HOURS_PER_DAY := by
      revert h2 h14
      unfold HOURS_PER_DAY
      omega
    have hzero := ((hhour h h14).2).2 hlate
    rw [← heq h h14]
    exact hzero

theorem C4_block_count_bounded_witness :
    (List.range HOURS_PER_DAY).countP (fun h => blockStart sol1 0 0 h) ≤
      (wkAt inst1 0).coupuresMax + 1 ∧
    blockStart sol1 0 0 13 = false :=
  ⟨(C4_block_count_bounded inst1 sol1 (by decide) 0 0 (by decide)
      (by decide)).1,
   (C4_block_count_bounded inst1 sol1 (by decide) 0 0 (by decide)
      (by decide)).2 13 (by decide) (by decide)⟩

/-- C5: in every accepted solution every worker has at least one pair of
adjacent days on both of which they work zero hours. -/
theorem C5_two_consecutive_days_off (inst : Instance) (s : Solution)
    (hf : Feasible inst s) (w : Nat) (hw : w < inst.workers.length) :
    ∃ d, d < DAYS - 1 ∧ totalDay s w d = 0 ∧ totalDay s w (d + 1) = 0 := by
  obtain ⟨hoff, hone, hsw, hdaily, htwo, hrest⟩ := hf
  obtain ⟨hbl, hsum⟩ := htwo w hw
  obtain ⟨d, hdmem, hbd⟩ := List.countP_pos_iff.mp hsum
  rw [List.mem_range] at hdmem
  have hoffd := (hbl d hdmem).1 hbd
  refine ⟨d, hdmem, ?_, ?_⟩
  · exact (hoff w hw d (by omega)).1 hoffd.1
  · exact (hoff w hw (d + 1) (by omega)).1 hoffd.2

theorem C5_two_consecutive_days_off_witness :
    ∃ d, d < DAYS - 1 ∧ totalDay sol1 0 d = 0 ∧
      totalDay sol1 0 (d + 1) = 0 :=
  C5_two_consecutive_days_off inst1 sol1 (by decide) 0 (by decide)

/-- C6: in every accepted solution each worker holds at most one role at
each time slot. -/
theorem C6_at_most_one_role (inst : Instance) (s : Solution)
    (hf : Feasible inst s) (w t : Nat) (hw : w < inst.workers.length)
    (ht : t < SLOTS) :
    currT s w t ≤ 1 :=
  hf.2.1 w hw t ht

theorem C6_at_most_one_role_witness : currT sol1 0 0 ≤ 1 :=
  C6_at_most_one_role inst1 sol1 (by decide) 0 0 (by decide) (by decide)

theorem planningOf_length (inst : Instance) (s : Solution) :
    (planningOf inst s).length = inst.workers.length * DAYS := by
  unfold planningOf
  generalize inst.workers.length = n
  induction n with
  | zero => simp
  | succ k ih =>
    rw [List.range_succ, List.flatMap_append]
    simp only [List.length_append, ih, List.flatMap_cons,
      List.flatMap_nil, List.append_nil, List.length_map,
      List.length_range, Nat.succ_mul]

/-- C7: the weekly break count reported in the summary equals the number
of days the worker worked on which strictly fewer hours were worked than
the span from first to last worked hour; in particular, a day worked
10:00-13:00 and 15:00-18:00 (slot hours 0-2 and 5-7) counts as exactly
one break, while its block-start count is 2. -/
theorem C7_break_count_is_gap_day_count (s : Solution) (w : Nat) :
    ((summaryOf s w).coup =
      (List.range DAYS).countP (fun d => hasBreakDay s w d)) ∧
    hasBreakDay solD 0 0 = true ∧
    (summaryOf solD 0).coup = 1 ∧
    (List.range HOURS_PER_DAY).countP (fun h => blockStart solD 0 0 h) = 2 := by
  refine ⟨?_, by decide, by decide, by decide⟩
  have h := (foldl_stepDay s w (List.range DAYS) ⟨0, 0, 0, 0, 0⟩).1
  simpa [summaryOf] using h

/-- C8: the decoder output is gated on solver status: exactly the
`OPTIMAL` and `FEASIBLE` statuses (the latter covering timeout without
an optimality proof) yield the decoded schedule, whose table is complete
(one row per worker and day); any other status yields only the failure
message and no schedule rows. -/
theorem C8_status_gates_decoding (st : CpStatus) (inst : Instance)
    (s : Solution) :
    (displayResults st inst s = Except.error failMsg ↔
      ¬(st = CpStatus.Optimal ∨ st = CpStatus.Feasible)) ∧
    ((displayResults st inst s).isOk =
      decide (st = CpStatus.Optimal ∨ st = CpStatus.Feasible)) ∧
    (planningOf inst s).length = inst.workers.length * DAYS := by
  refine ⟨?_, ?_, planningOf_length inst s⟩
  · unfold displayResults
    by_cases hc : st = CpStatus.Optimal ∨ st = CpStatus.Feasible
    · simp [hc]
    · simp [hc]
  · unfold displayResults
    by_cases hc : st = CpStatus.Optimal ∨ st = CpStatus.Feasible
    · simp [hc, Except.isOk, Except.toBool]
    · simp [hc, Except.isOk, Except.toBool]

/-- C9 (counterexample): a roster row whose `Cuisinier` cell is missing
is not rejected: model construction proceeds and the missing skill is
silently coerced to `false` by `fillna(False)`. -/
theorem C9_no_rejection_counterexample :
    (loadInstance [rowMissing] need0).workers =
      [{ nom := "Emp1", cuisinier := false, pizzaiolo := true,
         plongeur := true, heuresMax := 42, coupuresMax := 3 }] := by
  decide

/-- C9 (amended): malformed input is never rejected before model
construction: a missing skill cell is silently coerced to `false`
(ineligible), and a negative requirement value flows into the model
unchecked, where it merely makes every candidate solution infeasible
(surfaced later as solver failure). -/
theorem C9_silent_coercion (row : RawRow) (hrow : row.cuisinier = none)
    (inst : Instance) (s : Solution) (r : Role) (d h : Nat)
    (hd : d < DAYS) (hh : h < HOURS_PER_DAY)
    (hneg : inst.need r d h < 0) :
    (fillRow row).cuisinier = false ∧ ¬ Feasible inst s := by
  constructor
  · simp [fillRow, hrow]
  · intro hf
    have hcov := hf.2.2.2.2.2.2.2 d hd h hh r (mem_ROLES r)
    have hnn : (0 : Int) ≤ (assignedCount s inst.workers.length r d h : Int) :=
      Int.ofNat_nonneg _
    omega

theorem C9_silent_coercion_witness :
    (fillRow rowMissing).cuisinier = false ∧ ¬ Feasible instNeg sol0 :=
  C9_silent_coercion rowMissing (by decide) instNeg sol0 Role.Cuisinier 0 0
    (by decide) (by decide) (by decide)

/-- C10: for every decoded solution and worker, the reported average is
the weekly hour total divided by the number of working days, rounded to
two decimals, and is 0 (no division) when there are no working days. -/
theorem C10_average_guarded (s : Solution) (w : Nat) :
    avgOf s w =
      if daysWorkedOf s w = 0 then 0
      else round2 ((weekHoursOf s w : ℚ) / (daysWorkedOf s w : ℚ)) := by
  obtain ⟨h1, h2, h3⟩ := foldl_stepDay s w (List.range DAYS) ⟨0, 0, 0, 0, 0⟩
  have htot : (summaryOf s w).totalH = weekHoursOf s w := by
    simpa [summaryOf, weekHoursOf] using h2
  have hdays : (summaryOf s w).daysWorked = daysWorkedOf s w := by
    simpa [summaryOf, daysWorkedOf] using h3
  simp only [avgOf]
  rw [htot, hdays]
  by_cases h0 : daysWorkedOf s w = 0
  · simp [h0]
  · simp [h0]
